import Mathlib

/-!
Shallow embedding of the agentic orchestration service
(`src/services/agentic_orchestration_service.py`) and verification of its
specification.  Python floats are modelled as exact rationals (all score
constants and comparisons in the source are insensitive to binary rounding at
the values involved), machine strings as Lean `String`/`List Char` (the
source only manipulates ASCII in the scanned markers), and the external
LLM service as an oracle parameter: each chat-completion call is answered by
an environment-chosen `LLMOutcome`.  Wall-clock latency and token usage are
data supplied by that oracle; timestamps and request ids (pure wall-clock
identifiers, read by nothing in the source) are not modelled.
-/

/-- Lower-case an ASCII letter; other characters unchanged.  Models Python
`str.lower` on the ASCII subset actually scanned by the source. -/
def charLower (c : Char) : Char :=
  if 'A' ≤ c ∧ c ≤ 'Z' then Char.ofNat (c.toNat + 32) else c

/-- Character-list version of `str.lower`. -/
def lowerL (l : List Char) : List Char := l.map charLower

/-- ASCII whitespace recognised by Python `str.strip`. -/
def isPySpace (c : Char) : Bool :=
  c == ' ' || c == '\t' || c == '\n' || c == '\x0b' || c == '\x0c' || c == '\r'

/-- Python `str.strip`: drop whitespace from both ends. -/
def pyStrip (l : List Char) : List Char :=
  ((l.dropWhile isPySpace).reverse.dropWhile isPySpace).reverse

/-- Python substring test `needle in hay`. -/
def strIn (needle hay : String) : Bool := decide (needle.data <:+: hay.data)

/-- Character-list substring test. -/
def subL (needle hay : List Char) : Bool := decide (needle <:+: hay)

/-- Python `text.split(chr(10))`: split on newline, keeping empty chunks;
the empty text yields one empty line, as in Python. -/
def splitLines : List Char → List (List Char)
  | [] => [[]]
  | c :: rest =>
    match splitLines rest with
    | [] => [[c]]
    | l :: ls => if c == '\n' then [] :: l :: ls else (c :: l) :: ls

/-- First maximal run of decimal digits in a line: the match of the regex
searching for one-or-more digits, as a character list. -/
def firstDigitRun : List Char → Option (List Char)
  | [] => none
  | c :: rest =>
    if c.isDigit then some ((c :: rest).takeWhile Char.isDigit)
    else firstDigitRun rest

/-- Numeric value of a digit run. -/
def digitsToNat (l : List Char) : Nat :=
  l.foldl (fun acc c => acc * 10 + (c.toNat - 48)) 0

/-- Render a rational with two decimals (round half up).  Models the Python
`:.2f` format used only inside human-readable reason strings and prompts;
no verified claim depends on this text. -/
def fmt2 (q : ℚ) : String :=
  let n : Int := (q * 100 + 1/2).floor
  let m : Nat := n.natAbs
  (if n < 0 then "-" else "") ++ toString (m / 100) ++ "." ++
    (if m % 100 < 10 then "0" else "") ++ toString (m % 100)

/-- Python string interpolation of an optional string: `None` renders as
the text "None". -/
def optStr : Option String → String
  | none => "None"
  | some s => s

/-- Three-field token usage record of a chat completion. -/
structure TokenUsage where
  prompt_tokens : Nat
  completion_tokens : Nat
  total_tokens : Nat
deriving DecidableEq, Repr

/-- `AgentResponse` (pydantic model in the source): the response wrapper
produced by `_execute_llm`.  `request_id` and `timestamp` are wall-clock
identifiers read by nothing and are not modelled. -/
structure AgentResponse where
  agent_role : String
  content : String
  latency_ms : ℚ
  token_usage : TokenUsage
  success : Bool
  error : Option String := none
deriving DecidableEq, Repr

/-- `AgentState` (pydantic model in the source), with the source's field
defaults. -/
structure AgentState where
  workflow_id : String
  query : String
  goal_achieved : Bool := false
  attempts : Nat := 0
  max_attempts : Nat := 5
  research_output : Option String := none
  analysis_output : Option String := none
  validation_output : Option String := none
  quality_score : ℚ := 0
  action_history : List String := []
  total_latency_ms : ℚ := 0
  total_tokens : Nat := 0
deriving DecidableEq, Repr

/-- Per-call generation parameters (the Python constraints dict); `none`
means the key is absent and the `_execute_llm` default applies. -/
structure Constraints where
  model : Option String := none
  temperature : Option ℚ := none
  max_tokens : Option Nat := none
deriving DecidableEq, Repr

/-- The fully-resolved argument bundle of one `chat.completions.create`
call, after defaults are applied. -/
structure LLMCall where
  model : String
  temperature : ℚ
  max_tokens : Nat
  role : String
  prompt : String
deriving DecidableEq, Repr

/-- Environment-chosen outcome of one underlying chat-completion call:
either text plus usage counters, or an exception (with the latency
measured up to the point of success or failure). -/
inductive LLMOutcome where
  | ok (content : String) (usage : TokenUsage) (latency : ℚ)
  | err (msg : String) (latency : ℚ)
deriving DecidableEq, Repr

/-- Environment-chosen outcome of the boundary-classification call. -/
inductive BoundaryOutcome where
  | ok (answer : String)
  | err (msg : String)
deriving DecidableEq, Repr

/-- Injected configuration slices read by the service: per-role constraint
dicts (`config['agents']`) and the boundary topic lists. -/
structure AgentsConfig where
  researcher : Constraints := {}
  analyzer : Constraints := {}
  validator : Constraints := {}
  allowed_topics : List String := []
  forbidden_topics : List String := []
deriving Repr

/-- Scan of `_extract_quality_score`'s first phase: walk the lines; on the
first line containing the phrase "quality score" case-insensitively that
also contains a digit, return the value of its first digit run; a marker
line with no digit falls through to later lines, as in the source. -/
def scan_score_lines : List (List Char) → Option Nat
  | [] => none
  | line :: rest =>
    if subL "quality score".data (lowerL line) then
      match firstDigitRun line with
      | some ds => some (digitsToNat ds)
      | none => scan_score_lines rest
    else scan_score_lines rest

/-- `AgenticOrchestrationService._extract_quality_score`. -/
def extract_quality_score (validation_text : String) : ℚ :=
  match scan_score_lines (splitLines validation_text.data) with
  | some n => min ((n : ℚ) / 100) 1
  | none =>
    if strIn "PASS" validation_text || strIn "APPROVE" validation_text then 8/10
    else if strIn "REVISE" validation_text then 6/10
    else 4/10

/-- `AgenticPlanner.decide_next_action`.  The Python method both returns the
next action (`none` models the Python `None`, i.e. stop) and may mutate the
state: in its final branch it sets `goal_achieved := true`.  The returned
pair is (chosen action, state after the call). -/
def decide_next_action (threshold : ℚ) (s : AgentState) : Option String × AgentState :=
  if s.attempts ≥ s.max_attempts then (none, s)
  else if s.goal_achieved = true ∧ s.quality_score ≥ threshold then (none, s)
  else if s.research_output = none then (some "research", s)
  else if s.analysis_output = none then (some "analyze", s)
  else if s.validation_output = none then (some "validate", s)
  else if s.quality_score < threshold then
    (if s.quality_score < 1/2 then (some "research", s)
     else if s.quality_score < 13/20 then (some "refine_analysis", s)
     else (some "refine_minor", s))
  else (none, { s with goal_achieved := true })

/-- `AgenticPlanner.should_retry`. -/
def should_retry (threshold : ℚ) (s : AgentState) (quality_score : ℚ) : Bool :=
  if quality_score ≥ threshold then false
  else if s.attempts ≥ s.max_attempts then false
  else true

/-- The argument bundle `_execute_llm` passes to the underlying
chat-completion call, with the source's defaults for absent constraint
keys: model "gpt-4.1-mini", temperature 0.5, max output 500 tokens. -/
def mk_llm_call (role prompt : String) (constraints : Constraints) : LLMCall :=
  { model := constraints.model.getD "gpt-4.1-mini"
    temperature := constraints.temperature.getD (1/2)
    max_tokens := constraints.max_tokens.getD 500
    role := role
    prompt := prompt }

/-- `AgenticOrchestrationService._execute_llm`: wraps one underlying call.
On success it packages content and usage; on any exception it returns a
response with `success := false`, the stringified error, zero usage in all
three fields and the latency measured up to the failure point.  The Lean
function is total: no failure escapes this boundary. -/
def execute_llm (role prompt : String) (constraints : Constraints)
    (oracle : LLMCall → LLMOutcome) : AgentResponse :=
  match oracle (mk_llm_call role prompt constraints) with
  | .ok content usage latency =>
    { agent_role := role, content := content, latency_ms := latency
      token_usage := usage, success := true, error := none }
  | .err msg latency =>
    { agent_role := role, content := "", latency_ms := latency
      token_usage := ⟨0, 0, 0⟩, success := false, error := some msg }

/-- The fixed rejection reason of `_check_boundaries`. -/
def boundary_reject_reason : String := "Query rejected — relates to forbidden topics."

/-- `AgenticOrchestrationService._check_boundaries`: one classification
call; the query is rejected iff the call succeeds and its stripped,
lower-cased answer contains "yes"; any other answer, or a failing call,
allows the query (fail-open).  Returns (allowed, optional reason). -/
def check_boundaries (outcome : BoundaryOutcome) : Bool × Option String :=
  match outcome with
  | .ok answer =>
    if subL "yes".data (lowerL (pyStrip answer.data)) then
      (false, some boundary_reject_reason)
    else (true, none)
  | .err _ => (true, none)

/-- The `researcher_query` template of the prompt library, rendered with
topic, topic lists and `max_length = 400` as in `_tool_research`. -/
def researcher_prompt (allowed forbidden topic : String) : String :=
  "You are a research assistant tasked with gathering information.\n\nBOUNDARIES:\n- Focus ONLY on: "
    ++ allowed ++ "\n- DO NOT provide advice on: " ++ forbidden
    ++ "\n- Maximum response length: 400 words\n\nTASK: Research the following topic and provide key findings:\nTopic: "
    ++ topic
    ++ "\n\nRequirements:\n1. Provide factual, verifiable information\n2. Include 3-5 key points\n3. Be concise and structured\n4. Cite reasoning where applicable\n\nResponse:"

/-- The `analyzer_synthesis` template, rendered with the research data and
`max_length = 300` as in `_tool_analyze`. -/
def analyzer_prompt (research_data : String) : String :=
  "You are an analytical assistant that synthesizes information.\n\nROLE: Analyze and synthesize the provided research findings.\n\nINPUT RESEARCH:\n"
    ++ research_data
    ++ "\n\nANALYSIS REQUIREMENTS:\n1. Identify main themes and patterns\n2. Highlight key insights (2-4 insights)\n3. Note any contradictions or gaps\n4. Provide a coherent summary\n\nConstraints:\n- Be objective and analytical\n- Maximum 300 words\n- Focus on synthesis, not repetition\n\nAnalysis:"

/-- The `validator_check` template, rendered with the analysis. -/
def validator_prompt (analysis : String) : String :=
  "You are a quality validation assistant.\n\nROLE: Validate the quality and accuracy of the analysis.\n\nANALYSIS TO VALIDATE:\n"
    ++ analysis
    ++ "\n\nVALIDATION CHECKLIST:\n1. Logical consistency: Are the conclusions logical?\n2. Completeness: Does it address the original query?\n3. Clarity: Is it clear and well-structured?\n4. Factual accuracy: Are claims reasonable and supported?\n\nProvide validation results in this format:\n- Logical Consistency: [PASS/FAIL] - [brief reason]\n- Completeness: [PASS/FAIL] - [brief reason]\n- Clarity: [PASS/FAIL] - [brief reason]\n- Factual Accuracy: [PASS/FAIL] - [brief reason]\n- Overall Quality Score: [0-100]\n- Recommendation: [APPROVE/REVISE/REJECT]\n\nValidation Result:"

/-- The inline refinement prompt of `_tool_refine_analysis`. -/
def refine_analysis_prompt (s : AgentState) : String :=
  "You are an analytical assistant performing refinement.\n\nORIGINAL RESEARCH:\n"
    ++ optStr s.research_output
    ++ "\n\nPREVIOUS ANALYSIS (Quality Score: " ++ fmt2 s.quality_score
    ++ " - BELOW THRESHOLD):\n" ++ optStr s.analysis_output
    ++ "\n\nTASK: Provide a DEEPER, MORE DETAILED analysis:\n1. Add more specific insights\n2. Include concrete examples\n3. Provide more thorough synthesis\n4. Elaborate on key themes\n\nRefined Analysis:"

/-- The inline refinement prompt of `_tool_refine_minor`. -/
def refine_minor_prompt (s : AgentState) : String :=
  "You are an analytical assistant performing minor refinement.\n\nANALYSIS (Quality Score: "
    ++ fmt2 s.quality_score ++ " - Close to threshold):\n" ++ optStr s.analysis_output
    ++ "\n\nTASK: Make small improvements:\n1. Clarify any ambiguous points\n2. Strengthen conclusions\n3. Improve structure slightly\n\nRefined Analysis:"

/-- Membership in the `available_tools` dict: exactly the five registered
action names. -/
def tool_exists (act : String) : Bool :=
  act == "research" || act == "analyze" || act == "validate" ||
    act == "refine_analysis" || act == "refine_minor"

/-- Dispatch of one tool call: builds the role, prompt and constraints of
the corresponding `_tool_*` method and runs it through `execute_llm`.
`outcome` is the environment's answer to this underlying call. -/
def run_tool (cfg : AgentsConfig) (act : String) (outcome : LLMOutcome)
    (s : AgentState) : AgentResponse :=
  if act == "research" then
    execute_llm "researcher"
      (researcher_prompt (String.intercalate ", " cfg.allowed_topics)
        (String.intercalate ", " cfg.forbidden_topics) s.query)
      cfg.researcher (fun _ => outcome)
  else if act == "analyze" then
    execute_llm "analyzer" (analyzer_prompt (optStr s.research_output))
      cfg.analyzer (fun _ => outcome)
  else if act == "validate" then
    execute_llm "validator" (validator_prompt (optStr s.analysis_output))
      cfg.validator (fun _ => outcome)
  else if act == "refine_analysis" then
    execute_llm "analyzer_refinement" (refine_analysis_prompt s)
      { temperature := some (3/10), max_tokens := some 600 } (fun _ => outcome)
  else
    execute_llm "analyzer_minor_refine" (refine_minor_prompt s)
      { temperature := some (1/5), max_tokens := some 400 } (fun _ => outcome)

/-- One entry of the `results['stages']` dict.  `quality_score` is present
only for the validation stage, as in the source. -/
structure StageEntry where
  response : String
  latency_ms : ℚ
  tokens : TokenUsage
  success : Bool
  quality_score : Option ℚ := none
  attempt : Nat
deriving DecidableEq, Repr

/-- One entry of `results['action_sequence']`. -/
structure ActionLogEntry where
  attempt : Nat
  action : String
  reason : String
  quality_after : Option ℚ
deriving DecidableEq, Repr

/-- Instrumentation of the embedding (not a key of the Python results
dict): one record per capability call actually executed by the loop. -/
structure ExecRec where
  attempt : Nat
  action : String
  success : Bool
deriving DecidableEq, Repr

/-- The mutable `results` bookkeeping of `orchestrate_agentic_workflow`
while the loop runs, plus instrumentation counters of the embedding
(`calls_made`, `planner_calls`, `executed`) that record the interaction
trace without influencing it. -/
structure RunAcc where
  status : String := "in_progress"
  failed_action : Option String := none
  stages : List (String × StageEntry) := []
  action_sequence : List ActionLogEntry := []
  refinement_loops : Nat := 0
  calls_made : Nat := 0
  planner_calls : Nat := 0
  executed : List ExecRec := []
deriving DecidableEq, Repr

/-- Python dict insertion for `results['stages']`: replace in place when
the key exists, else append (insertion order preserved). -/
def stage_insert (stages : List (String × StageEntry)) (k : String)
    (v : StageEntry) : List (String × StageEntry) :=
  if stages.any (fun p => p.1 == k) then
    stages.map (fun p => if p.1 == k then (k, v) else p)
  else stages ++ [(k, v)]

/-- The decision reason computed before execution (source lines 476-485).
Every action branch later overwrites it, so it only survives on the
unreachable unknown-action path. -/
def pre_reason (threshold : ℚ) (s : AgentState) : String :=
  if s.research_output = none then "No research yet - need to gather information"
  else if s.analysis_output = none then "Research complete - need to analyze"
  else if s.validation_output = none then "Analysis complete - need to validate quality"
  else if s.quality_score < threshold then
    "Quality " ++ fmt2 s.quality_score ++ " below threshold " ++ fmt2 threshold
      ++ " - need to improve"
  else
    "Quality " ++ fmt2 s.quality_score ++ " meets threshold " ++ fmt2 threshold
      ++ " - finalizing"

/-- Result of the post-execution state/bookkeeping update of one action. -/
structure StepRes where
  state : AgentState
  stages : List (String × StageEntry)
  refinement_loops : Nat
  reason : String
deriving Repr

/-- The memory-update block of the loop (source lines 496-552): writes the
response into the stage slot selected by the action, updates the stages
dict, the refinement counter and the reason, and for `validate` extracts
the quality score and settles `goal_achieved` via `should_retry`. -/
def step_update (threshold : ℚ) (act : String) (resp : AgentResponse)
    (s : AgentState) (stages : List (String × StageEntry))
    (rl : Nat) (reason0 : String) : StepRes :=
  if act == "research" then
    { state := { s with research_output := some resp.content }
      stages := stage_insert stages "research"
        { response := resp.content, latency_ms := resp.latency_ms
          tokens := resp.token_usage, success := resp.success, attempt := s.attempts }
      refinement_loops := rl
      reason := if resp.success then "Research completed successfully" else "Research failed" }
  else if act == "analyze" || act == "refine_analysis" || act == "refine_minor" then
    { state := { s with analysis_output := some resp.content }
      stages := stage_insert stages act
        { response := resp.content, latency_ms := resp.latency_ms
          tokens := resp.token_usage, success := resp.success, attempt := s.attempts }
      refinement_loops := if strIn "refine" act then rl + 1 else rl
      reason := if strIn "refine" act then "Refinement completed - quality being re-evaluated"
                else "Analysis completed - ready for validation" }
  else if act == "validate" then
    let q := extract_quality_score resp.content
    let s1 := { s with validation_output := some resp.content, quality_score := q }
    let reason := if q ≥ threshold then
        "Validation complete - Quality " ++ fmt2 q ++ " ≥ threshold " ++ fmt2 threshold ++ " ✓"
      else
        "Validation complete - Quality " ++ fmt2 q ++ " < threshold " ++ fmt2 threshold
          ++ " - needs improvement"
    let s2 := if q ≥ threshold then { s1 with goal_achieved := true } else s1
    let s3 := if should_retry threshold s2 q then { s2 with goal_achieved := false }
              else { s2 with goal_achieved := true }
    { state := s3
      stages := stage_insert stages "validation"
        { response := resp.content, latency_ms := resp.latency_ms
          tokens := resp.token_usage, success := resp.success
          quality_score := some q, attempt := s.attempts }
      refinement_loops := rl
      reason := reason }
  else
    { state := s, stages := stages, refinement_loops := rl, reason := reason0 }

/-- Outcome of one loop iteration: halt (a `break` or planner stop) or
continue with the updated state and bookkeeping. -/
inductive StepOut where
  | halt (s : AgentState) (acc : RunAcc)
  | next (s : AgentState) (acc : RunAcc)
deriving Repr

/-- The execution phase of one loop iteration, after the Planner chose
`act` and the history was appended (source lines 476-569): look the tool
up in `available_tools` (halt when missing, as the dict `.get` path
would), execute it on the oracle outcome, apply the memory update, log
the action, add the latency/token totals, and halt with status "failed"
when the call failed. -/
def exec_phase (threshold : ℚ) (cfg : AgentsConfig) (outcome : LLMOutcome)
    (act : String) (s2 : AgentState) (acc1 : RunAcc) : StepOut :=
  if tool_exists act then
    let response := run_tool cfg act outcome s2
    let u := step_update threshold act response s2 acc1.stages acc1.refinement_loops
      (pre_reason threshold s2)
    let acc2 := { acc1 with
      stages := u.stages
      refinement_loops := u.refinement_loops
      action_sequence := acc1.action_sequence ++
        [{ attempt := u.state.attempts, action := act, reason := u.reason
           quality_after := if act == "validate" then some u.state.quality_score else none }]
      executed := acc1.executed ++
        [{ attempt := u.state.attempts, action := act, success := response.success }]
      calls_made := acc1.calls_made + 1 }
    let s4 := { u.state with
      total_latency_ms := u.state.total_latency_ms + response.latency_ms
      total_tokens := u.state.total_tokens + response.token_usage.total_tokens }
    if response.success then .next s4 acc2
    else .halt s4 { acc2 with status := "failed", failed_action := some act }
  else .halt s2 acc1

/-- One iteration of the agentic loop (source lines 462-569), entered with
the guard `attempts < max_attempts` already checked: increment `attempts`,
consult the planner (halt on `None`), append the chosen action to
`action_history`, then run the execution phase. -/
def loop_body (threshold : ℚ) (cfg : AgentsConfig) (calls : Nat → LLMOutcome)
    (s : AgentState) (acc : RunAcc) : StepOut :=
  let s1 := { s with attempts := s.attempts + 1 }
  let acc1 := { acc with planner_calls := acc.planner_calls + 1 }
  let dec := decide_next_action threshold s1
  match dec.1 with
  | none => .halt dec.2 acc1
  | some act =>
    exec_phase threshold cfg (calls acc1.calls_made) act
      { dec.2 with action_history := dec.2.action_history ++ [act] } acc1

/-- The `while state.attempts < state.max_attempts` loop, driven by
explicit fuel.  `agentic_loop` below supplies fuel `max_attempts`, which
is exact: the guard closes the loop before any larger fuel would be
consumed (proved in `loop_fuel_stable`). -/
def loop_fuel (threshold : ℚ) (cfg : AgentsConfig) (calls : Nat → LLMOutcome) :
    Nat → AgentState → RunAcc → AgentState × RunAcc
  | 0, s, acc => (s, acc)
  | f + 1, s, acc =>
    if s.attempts < s.max_attempts then
      match loop_body threshold cfg calls s acc with
      | .halt s' acc' => (s', acc')
      | .next s' acc' => loop_fuel threshold cfg calls f s' acc'
    else (s, acc)

/-- The agentic loop from a given state. -/
def agentic_loop (threshold : ℚ) (cfg : AgentsConfig) (calls : Nat → LLMOutcome)
    (s : AgentState) (acc : RunAcc) : AgentState × RunAcc :=
  loop_fuel threshold cfg calls s.max_attempts s acc

/-- The returned result dict of `orchestrate_agentic_workflow`, flattened:
the `metrics` sub-dict is inlined, `timestamp` (wall clock) is not
modelled, and `action_history`, `executed`, `planner_calls` expose the
final state and interaction trace of the embedding for specification
purposes (the rejected path in the source returns a dict without the
run fields; they keep their defaults here and `status` discriminates). -/
structure WorkflowResult where
  workflow_id : String
  status : String
  reason : Option String := none
  agentic : Bool
  stages : List (String × StageEntry) := []
  action_sequence : List ActionLogEntry := []
  total_latency_ms : ℚ := 0
  total_tokens : Nat := 0
  stages_completed : Nat := 0
  refinement_loops : Nat := 0
  total_attempts : Nat := 0
  final_quality_score : ℚ := 0
  goal_achieved : Bool := false
  failed_action : Option String := none
  action_history : List String := []
  executed : List ExecRec := []
  planner_calls : Nat := 0
deriving DecidableEq, Repr

/-- `AgenticOrchestrationService.orchestrate_agentic_workflow`: boundary
check first (terminal rejection without touching planner or loop), then
the agentic loop from a fresh state, then the terminal status resolution:
`completed` if `goal_achieved`, else `max_attempts_reached` if the budget
is exhausted, else whatever the loop left (`failed` or `in_progress`). -/
def orchestrate_agentic_workflow (threshold : ℚ) (cfg : AgentsConfig)
    (boundary : BoundaryOutcome) (calls : Nat → LLMOutcome)
    (query workflow_id : String) : WorkflowResult :=
  let bc := check_boundaries boundary
  if bc.1 = false then
    { workflow_id := workflow_id, status := "rejected", reason := bc.2, agentic := false }
  else
    let s0 : AgentState := { workflow_id := workflow_id, query := query }
    let r := agentic_loop threshold cfg calls s0 {}
    let sF := r.1
    let accF := r.2
    let status :=
      if sF.goal_achieved = true then "completed"
      else if sF.attempts ≥ sF.max_attempts then "max_attempts_reached"
      else accF.status
    { workflow_id := workflow_id, status := status, reason := none, agentic := true
      stages := accF.stages, action_sequence := accF.action_sequence
      total_latency_ms := sF.total_latency_ms, total_tokens := sF.total_tokens
      stages_completed := accF.stages.length, refinement_loops := accF.refinement_loops
      total_attempts := sF.attempts, final_quality_score := sF.quality_score
      goal_achieved := sF.goal_achieved, failed_action := accF.failed_action
      action_history := sF.action_history, executed := accF.executed
      planner_calls := accF.planner_calls }

/-- The specification's closed set of symbolic action identifiers
(`stop` is the `none` of an `Option SpecAction`). -/
inductive SpecAction where
  | research
  | analyze
  | validate
  | refine_major
  | refine_minor
deriving DecidableEq, Repr

/-- The source-code identifier of each symbolic action: the specification's
`refine_major` is the source's "refine_analysis". -/
def spec_action_name : SpecAction → String
  | .research => "research"
  | .analyze => "analyze"
  | .validate => "validate"
  | .refine_major => "refine_analysis"
  | .refine_minor => "refine_minor"

/-- The Planner decision table exactly as the specification words it,
evaluated top to bottom, first match wins; the final row stops and marks
`goal_achieved := true`. -/
def planner_decision_table (threshold : ℚ) (s : AgentState) :
    Option SpecAction × AgentState :=
  if s.attempts ≥ s.max_attempts then (none, s)
  else if s.goal_achieved = true ∧ s.quality_score ≥ threshold then (none, s)
  else if s.research_output = none then (some .research, s)
  else if s.analysis_output = none then (some .analyze, s)
  else if s.validation_output = none then (some .validate, s)
  else if s.quality_score < threshold ∧ s.quality_score < 1/2 then (some .research, s)
  else if s.quality_score < threshold ∧ s.quality_score < 13/20 then (some .refine_major, s)
  else if s.quality_score < threshold then (some .refine_minor, s)
  else (none, { s with goal_achieved := true })

/-- The Quality Extractor's four-step priority ladder exactly as the
specification words it: the first integer token of a line carrying the
case-insensitive marker phrase, divided by 100 and clamped to [0,1];
else 0.8 on an approval keyword, 0.6 on a revision keyword, else 0.4. -/
def quality_ladder (t : String) : ℚ :=
  match (splitLines t.data).findSome? (fun line =>
      if subL "quality score".data (lowerL line) then
        (firstDigitRun line).map (fun ds => max 0 (min ((digitsToNat ds : ℚ) / 100) 1))
      else none) with
  | some q => q
  | none =>
    if strIn "PASS" t || strIn "APPROVE" t then 8/10
    else if strIn "REVISE" t then 6/10
    else 4/10

/-- The specification's affirmative-answer test: the classification reply
contains "yes" as a case-insensitive substring (no mention of the
stripping the source also performs — they agree, see `C7`). -/
def answer_affirms (ans : String) : Prop := "yes".data <:+: lowerL ans.data

/-- Scenario-A oracle: research and analysis succeed with arbitrary
content and usage; the validation reply carries the line
"Overall Quality Score: 85". -/
def scenarioA_calls (r1 r2 : String) (u1 u2 u3 : TokenUsage) (l1 l2 l3 : ℚ) :
    Nat → LLMOutcome
  | 0 => .ok r1 u1 l1
  | 1 => .ok r2 u2 l2
  | 2 => .ok "Overall Quality Score: 85" u3 l3
  | _ => .ok "" ⟨0, 0, 0⟩ 0

/-- Oracle whose third call (the validation) raises. -/
def validate_fails_calls : Nat → LLMOutcome
  | 0 => .ok "research findings" ⟨10, 20, 30⟩ 5
  | 1 => .ok "analysis text" ⟨10, 20, 30⟩ 5
  | _ => .err "boom" 7

/-- Oracle whose second call (the analysis) raises. -/
def analyze_fails_calls : Nat → LLMOutcome
  | 0 => .ok "research findings" ⟨10, 20, 30⟩ 5
  | _ => .err "boom" 7

/-- A state in which every stage slot is filled and the validated quality
meets the 0.75 threshold, while `goal_achieved` is still false: the state
on which the Planner's final branch fires. -/
def goal_pending_state : AgentState :=
  { workflow_id := "w", query := "q", goal_achieved := false, attempts := 1
    max_attempts := 5, research_output := some "r", analysis_output := some "a"
    validation_output := some "v", quality_score := 4/5, action_history := []
    total_latency_ms := 0, total_tokens := 0 }

/-- A state whose research and analysis are done but whose validation is
still pending: the Planner must choose validate here. -/
def validate_next_state : AgentState :=
  { workflow_id := "w", query := "q", attempts := 1
    research_output := some "r", analysis_output := some "a" }

/-- When the Planner returns an action (rather than stopping), the state
is returned unmutated: the `goal_achieved := true` write sits only on the
final stop branch. -/
theorem decide_some_state {thr : ℚ} {s : AgentState} {a : String}
    (h : (decide_next_action thr s).1 = some a) :
    (decide_next_action thr s).2 = s := by
  unfold decide_next_action at h ⊢
  split_ifs at h ⊢ <;> simp_all

/-- The Planner returns an action only while the attempt budget is open. -/
theorem decide_some_lt {thr : ℚ} {s : AgentState} {a : String}
    (h : (decide_next_action thr s).1 = some a) :
    s.attempts < s.max_attempts := by
  unfold decide_next_action at h
  split_ifs at h <;> first | omega | simp_all

/-- Every action the Planner can return is a key of `available_tools`. -/
theorem decide_some_mem {thr : ℚ} {s : AgentState} {a : String}
    (h : (decide_next_action thr s).1 = some a) :
    a = "research" ∨ a = "analyze" ∨ a = "validate" ∨
      a = "refine_analysis" ∨ a = "refine_minor" := by
  unfold decide_next_action at h
  split_ifs at h <;> simp_all

/-- The Planner chooses `validate` only when `validation_output` is unset. -/
theorem decide_validate_none {thr : ℚ} {s : AgentState}
    (h : (decide_next_action thr s).1 = some "validate") :
    s.validation_output = none := by
  unfold decide_next_action at h
  split_ifs at h <;> simp_all

/-- Under the invariant that an achieved goal certifies the threshold, the
Planner returns an action only from unachieved states. -/
theorem decide_some_goal {thr : ℚ} {s : AgentState} {a : String}
    (h : (decide_next_action thr s).1 = some a)
    (hg : s.goal_achieved = true → thr ≤ s.quality_score) :
    s.goal_achieved = false := by
  by_contra hb
  have hgtrue : s.goal_achieved = true := by
    cases hgoal : s.goal_achieved <;> simp_all
  have hq := hg hgtrue
  unfold decide_next_action at h
  split_ifs at h <;> simp_all <;> linarith

/-- On the stop result the state is either untouched or has exactly
`goal_achieved` set to true. -/
theorem decide_none_cases {thr : ℚ} {s : AgentState}
    (h : (decide_next_action thr s).1 = none) :
    (decide_next_action thr s).2 = s ∨
      (decide_next_action thr s).2 = { s with goal_achieved := true } := by
  unfold decide_next_action
  split_ifs <;> simp

/-- C1: for every state, the Planner's decide function returns exactly the
first matching row of the specification's decision table (top to bottom:
budget stop; achieved-goal stop; research/analyze/validate on the first
unset slot; below-threshold correction chosen by the 0.5 / 0.65 cutoffs,
the spec's `refine_major` being the source's "refine_analysis"; final stop
marking `goal_achieved`), and in particular with `research_output` unset
it never returns analyze or validate. -/
theorem C1_planner_decision_table (threshold : ℚ) (s : AgentState) :
    decide_next_action threshold s =
      ((planner_decision_table threshold s).1.map spec_action_name,
        (planner_decision_table threshold s).2) ∧
    (s.research_output = none →
      (decide_next_action threshold s).1 ≠ some "analyze" ∧
        (decide_next_action threshold s).1 ≠ some "validate") := by
  constructor
  · unfold decide_next_action planner_decision_table
    split_ifs <;> simp_all [spec_action_name] <;> linarith
  · intro h
    unfold decide_next_action
    split_ifs <;> simp_all

/-- C1 witness: on a fresh state (research unset) the Planner does not
choose analyze. -/
theorem C1_witness :
    (decide_next_action (3/4) { workflow_id := "w", query := "q" }).1 ≠ some "analyze" :=
  ((C1_planner_decision_table (3/4) { workflow_id := "w", query := "q" }).2 rfl).1

/-- C4 counterexample: `decide` is not free of side effects: on a state
with all slots filled, quality 0.8 ≥ threshold 0.75 and `goal_achieved`
still false, the call returns a state that differs from its argument
(`goal_achieved` has been flipped to true). -/
theorem C4_counterexample :
    (decide_next_action (3/4) goal_pending_state).2 ≠ goal_pending_state := by
  have : (decide_next_action (3/4) goal_pending_state).2.goal_achieved = true := by
    norm_num [decide_next_action, goal_pending_state]
    simp
  intro heq
  rw [heq] at this
  simp [goal_pending_state] at this

/-- C4 (amended): the Planner is deterministic (it is a function of the
state alone) and leaves every state field unchanged except that on its
final stop branch — all slots filled and quality at or above threshold —
it sets `goal_achieved` to true. -/
theorem C4_planner_frame (threshold : ℚ) (s : AgentState) :
    (decide_next_action threshold s).2 = s ∨
      ((decide_next_action threshold s).1 = none ∧
        threshold ≤ s.quality_score ∧
        (decide_next_action threshold s).2 = { s with goal_achieved := true }) := by
  unfold decide_next_action
  split_ifs <;> simp_all <;> linarith

/-- The spec-worded clamped scan agrees with the source's scan (whose
division-by-100 values are never negative, so the lower clamp is idle). -/
theorem findSome_eq_scan (ls : List (List Char)) :
    (ls.findSome? (fun line =>
        if subL "quality score".data (lowerL line) then
          (firstDigitRun line).map (fun ds => max 0 (min ((digitsToNat ds : ℚ) / 100) 1))
        else none)) =
      (scan_score_lines ls).map (fun n => min ((n : ℚ) / 100) 1) := by
  induction ls with
  | nil => rfl
  | cons line rest ih =>
    rw [List.findSome?_cons]
    by_cases hp : subL "quality score".data (lowerL line)
    · cases hd : firstDigitRun line with
      | none => simp [scan_score_lines, hp, hd, ih]
      | some ds =>
        have h0 : (0 : ℚ) ≤ min ((digitsToNat ds : ℚ) / 100) 1 :=
          le_min (by positivity) zero_le_one
        simp [scan_score_lines, hp, hd, max_eq_right h0]
    · simp [scan_score_lines, hp, ih]

/-- C5: the Quality Extractor computes exactly the specification's
four-step priority ladder, never fails (it is a total function), and its
result always lies in [0,1]. -/
theorem C5_quality_extractor (t : String) :
    extract_quality_score t = quality_ladder t ∧
    0 ≤ extract_quality_score t ∧ extract_quality_score t ≤ 1 := by
  refine ⟨?_, ?_⟩
  · unfold extract_quality_score quality_ladder
    rw [findSome_eq_scan]
    cases h : scan_score_lines (splitLines t.data) <;> simp [h]
  · unfold extract_quality_score
    cases h : scan_score_lines (splitLines t.data) with
    | none =>
      constructor
      · split_ifs <;> norm_num
      · split_ifs <;> norm_num
    | some n =>
      refine ⟨le_min (by positivity) zero_le_one, min_le_right _ _⟩

/-- C6: the Capability Client converts any failure of the underlying call
into data — `success := false`, the error description, zero usage in all
three fields, and the latency measured up to the failure point — and the
call it issues uses temperature 0.5 and a 500-token output cap when the
constraints omit them. -/
theorem C6_capability_client (role prompt : String) (constraints : Constraints)
    (oracle : LLMCall → LLMOutcome) (msg : String) (latency : ℚ) :
    (oracle (mk_llm_call role prompt constraints) = .err msg latency →
      execute_llm role prompt constraints oracle =
        { agent_role := role, content := "", latency_ms := latency
          token_usage := ⟨0, 0, 0⟩, success := false, error := some msg }) ∧
    (constraints.temperature = none →
      (mk_llm_call role prompt constraints).temperature = 1/2) ∧
    (constraints.max_tokens = none →
      (mk_llm_call role prompt constraints).max_tokens = 500) := by
  refine ⟨fun h => ?_, fun h => ?_, fun h => ?_⟩
  · unfold execute_llm
    rw [h]
  · simp [mk_llm_call, h]
  · simp [mk_llm_call, h]

/-- Whitespace is untouched by lower-casing. -/
theorem charLower_space {c : Char} (h : isPySpace c = true) : charLower c = c := by
  simp only [isPySpace, Bool.or_eq_true, beq_iff_eq] at h
  rcases h with ((((h | h) | h) | h) | h) | h <;> subst h <;> decide

/-- Dropping leading whitespace neither creates nor destroys occurrences
of a needle whose first character is not whitespace. -/
theorem infix_lower_dropWhile (n : List Char) (h0 : Char)
    (hn : n.head? = some h0) (h0ns : isPySpace h0 = false) (u : List Char) :
    (n <:+: lowerL (u.dropWhile isPySpace)) ↔ (n <:+: lowerL u) := by
  induction u with
  | nil => simp
  | cons c t ih =>
    by_cases hc : isPySpace c
    · rw [List.dropWhile_cons_of_pos hc]
      rw [ih]
      show (n <:+: lowerL t) ↔ (n <:+: lowerL (c :: t))
      unfold lowerL
      rw [List.map_cons, charLower_space hc, List.infix_cons_iff]
      constructor
      · exact Or.inr
      · rintro (hpre | hinf)
        · exfalso
          obtain ⟨h0', n', rfl⟩ : ∃ h0' n', n = h0' :: n' := by
            cases n with
            | nil => simp at hn
            | cons a b => exact ⟨a, b, rfl⟩
          obtain ⟨r, hr⟩ := hpre
          have hceq : h0' = c := by
            have := hr
            simp only [List.cons_append] at this
            exact (List.cons.injEq _ _ _ _ ▸ this).1
          have hh0 : h0' = h0 := by simpa using hn
          rw [hh0] at hceq
          rw [hceq] at h0ns
          rw [h0ns] at hc
          exact Bool.noConfusion hc
        · exact hinf
    · rw [List.dropWhile_cons_of_neg hc]

/-- An infix of a reversed list is the reversed needle's infix of the
original list. -/
theorem infix_reverse_iff (n m : List Char) :
    (n <:+: m.reverse) ↔ (n.reverse <:+: m) := by
  conv_lhs => rw [show n = n.reverse.reverse by simp]
  exact List.reverse_infix

/-- Python's strip is invisible to the affirmative-substring test: "yes"
occurs in the lower-cased stripped answer iff it occurs in the lower-cased
answer itself. -/
theorem yes_strip_iff (l : List Char) :
    ("yes".data <:+: lowerL (pyStrip l)) ↔ ("yes".data <:+: lowerL l) := by
  unfold pyStrip
  rw [show lowerL (((l.dropWhile isPySpace).reverse.dropWhile isPySpace).reverse) =
      (lowerL ((l.dropWhile isPySpace).reverse.dropWhile isPySpace)).reverse by
    simp [lowerL]]
  rw [infix_reverse_iff]
  rw [infix_lower_dropWhile ("yes".data.reverse) 's' (by decide) (by decide)]
  rw [show lowerL (l.dropWhile isPySpace).reverse = (lowerL (l.dropWhile isPySpace)).reverse by
    simp [lowerL]]
  rw [List.reverse_infix]
  exact infix_lower_dropWhile ("yes".data) 'y' (by decide) (by decide) l

/-- C7: the Boundary Checker returns `allowed = false` (with the fixed
rejection reason) exactly when the classification call succeeds and its
text contains "yes" case-insensitively; any other text or a failing call
fails open; and a disallowed query makes the orchestration return a
terminal rejected result with the Planner never invoked and no capability
call executed. -/
theorem C7_boundary_checker :
    (∀ outcome : BoundaryOutcome,
      ((check_boundaries outcome).1 = false ↔
        ∃ ans, outcome = .ok ans ∧ answer_affirms ans) ∧
      ((check_boundaries outcome).1 = false →
        (check_boundaries outcome).2 = some boundary_reject_reason)) ∧
    (∀ (threshold : ℚ) (cfg : AgentsConfig) (boundary : BoundaryOutcome)
        (calls : Nat → LLMOutcome) (query wid : String),
      (check_boundaries boundary).1 = false →
        (orchestrate_agentic_workflow threshold cfg boundary calls query wid).status
            = "rejected" ∧
          (orchestrate_agentic_workflow threshold cfg boundary calls query wid).planner_calls
            = 0 ∧
          (orchestrate_agentic_workflow threshold cfg boundary calls query wid).executed
            = [] ∧
          (orchestrate_agentic_workflow threshold cfg boundary calls query wid).reason
            = some boundary_reject_reason) := by
  have hyes : ∀ ans : String,
      subL "yes".data (lowerL (pyStrip ans.data)) = true ↔ answer_affirms ans := by
    intro ans
    unfold subL answer_affirms
    rw [decide_eq_true_iff]
    exact yes_strip_iff ans.data
  have hmain : ∀ outcome : BoundaryOutcome,
      ((check_boundaries outcome).1 = false ↔
        ∃ ans, outcome = .ok ans ∧ answer_affirms ans) := by
    intro outcome
    cases outcome with
    | ok ans =>
      unfold check_boundaries
      by_cases hs : subL "yes".data (lowerL (pyStrip ans.data)) = true
      · simp only [hs, if_true]
        simp only [true_iff, show (false = false) = True by simp]
        exact ⟨ans, rfl, (hyes ans).1 hs⟩
      · simp only [Bool.not_eq_true] at hs
        simp only [hs, Bool.false_eq_true, if_false]
        constructor
        · intro h; exact absurd h (by simp)
        · rintro ⟨a, ha, haff⟩
          obtain rfl : ans = a := by injection ha
          exact absurd ((hyes ans).2 haff) (by simp [hs])
    | err m =>
      simp [check_boundaries]
  have hfix : ∀ outcome : BoundaryOutcome, (check_boundaries outcome).1 = false →
      (check_boundaries outcome).2 = some boundary_reject_reason := by
    intro outcome
    cases outcome with
    | ok ans =>
      simp only [check_boundaries]
      split_ifs <;> simp
    | err m => simp [check_boundaries]
  refine ⟨fun o => ⟨hmain o, hfix o⟩, ?_⟩
  intro threshold cfg boundary calls query wid h
  unfold orchestrate_agentic_workflow
  rw [if_pos h]
  exact ⟨rfl, rfl, rfl, by rw [hfix boundary h]⟩

/-- C7 witness: the concrete answer "YES" is rejected and the workflow
returns a rejected result. -/
theorem C7_witness :
    (check_boundaries (.ok "YES")).1 = false ∧
    (orchestrate_agentic_workflow (3/4) {} (.ok "YES")
        (fun _ => .ok "" ⟨0, 0, 0⟩ 0) "q" "w").status = "rejected" := by
  have h1 : (check_boundaries (.ok "YES")).1 = false := by decide
  exact ⟨h1, (C7_boundary_checker.2 (3/4) {} (.ok "YES")
    (fun _ => .ok "" ⟨0, 0, 0⟩ 0) "q" "w" h1).1⟩

/-- On the stop result the state is untouched, or the final branch fired:
`goal_achieved` set with the quality certified at threshold. -/
theorem decide_none_frame {thr : ℚ} {s : AgentState}
    (h : (decide_next_action thr s).1 = none) :
    (decide_next_action thr s).2 = s ∨
      ((decide_next_action thr s).2 = { s with goal_achieved := true } ∧
        thr ≤ s.quality_score) := by
  unfold decide_next_action
  split_ifs <;> simp_all <;> linarith

/-- Each of the five planner actions is a registered tool. -/
theorem tool_exists_of_mem {a : String}
    (h : a = "research" ∨ a = "analyze" ∨ a = "validate" ∨
      a = "refine_analysis" ∨ a = "refine_minor") : tool_exists a = true := by
  rcases h with h | h | h | h | h <;> subst h <;> decide

/-- A failing tool call carries empty content (the failure branch of
`_execute_llm` fills in the empty string). -/
theorem run_tool_fail_content (cfg : AgentsConfig) (act : String)
    (outcome : LLMOutcome) (s : AgentState)
    (h : (run_tool cfg act outcome s).success = false) :
    (run_tool cfg act outcome s).content = "" := by
  unfold run_tool execute_llm at *
  split_ifs at * <;> cases outcome <;> simp_all

/-- The memory update never touches the attempt counter. -/
theorem step_update_attempts (thr : ℚ) (act : String) (resp : AgentResponse)
    (s : AgentState) (st : List (String × StageEntry)) (rl : Nat) (r0 : String) :
    (step_update thr act resp s st rl r0).state.attempts = s.attempts := by
  unfold step_update
  dsimp only
  split_ifs <;> simp

/-- The memory update never touches the attempt budget. -/
theorem step_update_max (thr : ℚ) (act : String) (resp : AgentResponse)
    (s : AgentState) (st : List (String × StageEntry)) (rl : Nat) (r0 : String) :
    (step_update thr act resp s st rl r0).state.max_attempts = s.max_attempts := by
  unfold step_update
  dsimp only
  split_ifs <;> simp

/-- The memory update never touches the action history. -/
theorem step_update_history (thr : ℚ) (act : String) (resp : AgentResponse)
    (s : AgentState) (st : List (String × StageEntry)) (rl : Nat) (r0 : String) :
    (step_update thr act resp s st rl r0).state.action_history = s.action_history := by
  unfold step_update
  dsimp only
  split_ifs <;> simp

/-- Memory update of a non-validate action: the validation slot, the goal
flag and the quality score are untouched. -/
theorem step_update_non_validate (thr : ℚ) (act : String) (resp : AgentResponse)
    (s : AgentState) (st : List (String × StageEntry)) (rl : Nat) (r0 : String)
    (h : act ≠ "validate") :
    (step_update thr act resp s st rl r0).state.validation_output = s.validation_output ∧
    (step_update thr act resp s st rl r0).state.goal_achieved = s.goal_achieved ∧
    (step_update thr act resp s st rl r0).state.quality_score = s.quality_score := by
  unfold step_update
  dsimp only
  split_ifs <;> simp_all

/-- Memory update of the validate action: the validation slot receives the
response, the score is extracted, and `goal_achieved` settles to true
exactly when retrying is not warranted. -/
theorem step_update_validate (thr : ℚ) (resp : AgentResponse)
    (s : AgentState) (st : List (String × StageEntry)) (rl : Nat) (r0 : String) :
    (step_update thr "validate" resp s st rl r0).state.validation_output
        = some resp.content ∧
    (step_update thr "validate" resp s st rl r0).state.quality_score
        = extract_quality_score resp.content ∧
    ((step_update thr "validate" resp s st rl r0).state.goal_achieved = true ↔
      (thr ≤ extract_quality_score resp.content ∨ s.max_attempts ≤ s.attempts)) := by
  unfold step_update should_retry
  dsimp only
  split_ifs <;> simp_all <;> constructor <;> intro hx <;> first | tauto | linarith

/-- Characterization of the execution phase on a registered action: the
response is the tool run; the result is `next` on success or a
failed-status `halt`, with the listed bookkeeping relations. -/
theorem exec_phase_spec (thr : ℚ) (cfg : AgentsConfig) (outcome : LLMOutcome)
    (act : String) (s2 : AgentState) (acc1 : RunAcc)
    (hmem : act = "research" ∨ act = "analyze" ∨ act = "validate" ∨
      act = "refine_analysis" ∨ act = "refine_minor") :
    ∃ (resp : AgentResponse) (s' : AgentState) (accB : RunAcc),
      ((resp.success = true ∧ exec_phase thr cfg outcome act s2 acc1 = .next s' accB ∧
          accB.status = acc1.status ∧ accB.failed_action = acc1.failed_action) ∨
        (resp.success = false ∧ exec_phase thr cfg outcome act s2 acc1 = .halt s' accB ∧
          accB.status = "failed" ∧ accB.failed_action = some act)) ∧
      resp = run_tool cfg act outcome s2 ∧
      s'.attempts = s2.attempts ∧ s'.max_attempts = s2.max_attempts ∧
      s'.action_history = s2.action_history ∧
      accB.planner_calls = acc1.planner_calls ∧
      accB.executed = acc1.executed ++ [⟨s2.attempts, act, resp.success⟩] ∧
      accB.action_sequence.length = acc1.action_sequence.length + 1 ∧
      (act ≠ "validate" → s'.validation_output = s2.validation_output ∧
        s'.goal_achieved = s2.goal_achieved ∧ s'.quality_score = s2.quality_score) ∧
      (act = "validate" → s'.validation_output = some resp.content ∧
        s'.quality_score = extract_quality_score resp.content ∧
        (s'.goal_achieved = true ↔
          (thr ≤ extract_quality_score resp.content ∨
            s2.max_attempts ≤ s2.attempts))) := by
  have htool := tool_exists_of_mem hmem
  unfold exec_phase
  rw [if_pos htool]
  dsimp only
  have hatt := step_update_attempts thr act (run_tool cfg act outcome s2) s2
    acc1.stages acc1.refinement_loops (pre_reason thr s2)
  have hmax := step_update_max thr act (run_tool cfg act outcome s2) s2
    acc1.stages acc1.refinement_loops (pre_reason thr s2)
  have hhist := step_update_history thr act (run_tool cfg act outcome s2) s2
    acc1.stages acc1.refinement_loops (pre_reason thr s2)
  by_cases hsucc : (run_tool cfg act outcome s2).success = true
  · rw [if_pos hsucc]
    refine ⟨run_tool cfg act outcome s2, _, _, Or.inl ⟨hsucc, rfl, rfl, rfl⟩, rfl,
      by simpa using hatt, by simpa using hmax, by simpa using hhist,
      rfl, by simp [hatt], by simp, ?_, ?_⟩
    · intro hnv
      simpa using step_update_non_validate thr act (run_tool cfg act outcome s2) s2
        acc1.stages acc1.refinement_loops (pre_reason thr s2) hnv
    · intro hv
      subst hv
      simpa using step_update_validate thr (run_tool cfg "validate" outcome s2) s2
        acc1.stages acc1.refinement_loops (pre_reason thr s2)
  · have hsucc' : (run_tool cfg act outcome s2).success = false := by
      cases h : (run_tool cfg act outcome s2).success
      · rfl
      · exact absurd h hsucc
    rw [if_neg (by simp [hsucc'])]
    refine ⟨run_tool cfg act outcome s2, _, _, Or.inr ⟨hsucc', rfl, rfl, rfl⟩, rfl,
      by simpa using hatt, by simpa using hmax, by simpa using hhist,
      rfl, by simp [hatt], by simp, ?_, ?_⟩
    · intro hnv
      simpa using step_update_non_validate thr act (run_tool cfg act outcome s2) s2
        acc1.stages acc1.refinement_loops (pre_reason thr s2) hnv
    · intro hv
      subst hv
      simpa using step_update_validate thr (run_tool cfg "validate" outcome s2) s2
        acc1.stages acc1.refinement_loops (pre_reason thr s2)

/-- Characterization of one loop iteration: either the Planner stops (the
accumulator only counts the consultation; the state gains the attempt
increment and at most the `goal_achieved := true` mark), or an action is
executed with all the bookkeeping relations listed. -/
theorem loop_body_spec (thr : ℚ) (cfg : AgentsConfig) (calls : Nat → LLMOutcome)
    (s : AgentState) (acc : RunAcc) :
    (∃ s' : AgentState, loop_body thr cfg calls s acc =
        .halt s' { acc with planner_calls := acc.planner_calls + 1 } ∧
      s'.attempts = s.attempts + 1 ∧ s'.max_attempts = s.max_attempts ∧
      s'.action_history = s.action_history ∧
      s'.validation_output = s.validation_output ∧
      s'.quality_score = s.quality_score ∧
      (s'.goal_achieved = s.goal_achieved ∨
        (s'.goal_achieved = true ∧ thr ≤ s.quality_score))) ∨
    (∃ (act : String) (resp : AgentResponse) (s' : AgentState) (accB : RunAcc),
      ((resp.success = true ∧ loop_body thr cfg calls s acc = .next s' accB ∧
          accB.status = acc.status ∧ accB.failed_action = acc.failed_action) ∨
        (resp.success = false ∧ loop_body thr cfg calls s acc = .halt s' accB ∧
          accB.status = "failed" ∧ accB.failed_action = some act)) ∧
      s.attempts + 1 < s.max_attempts ∧
      (act = "research" ∨ act = "analyze" ∨ act = "validate" ∨
        act = "refine_analysis" ∨ act = "refine_minor") ∧
      s'.attempts = s.attempts + 1 ∧ s'.max_attempts = s.max_attempts ∧
      s'.action_history = s.action_history ++ [act] ∧
      accB.planner_calls = acc.planner_calls + 1 ∧
      accB.executed = acc.executed ++ [⟨s.attempts + 1, act, resp.success⟩] ∧
      accB.action_sequence.length = acc.action_sequence.length + 1 ∧
      (resp.success = false → resp.content = "") ∧
      (act ≠ "validate" → s'.validation_output = s.validation_output ∧
        s'.goal_achieved = s.goal_achieved ∧ s'.quality_score = s.quality_score) ∧
      (act = "validate" → s'.validation_output = some resp.content ∧
        s'.quality_score = extract_quality_score resp.content ∧
        (s'.goal_achieved = true ↔
          (thr ≤ extract_quality_score resp.content ∨
            s.max_attempts ≤ s.attempts + 1))) ∧
      (act = "validate" → s.validation_output = none) ∧
      ((s.goal_achieved = true → thr ≤ s.quality_score) →
        s.goal_achieved = false)) := by
  unfold loop_body
  dsimp only
  cases hdec : (decide_next_action thr { s with attempts := s.attempts + 1 }).1 with
  | none =>
    left
    simp only [hdec]
    refine ⟨(decide_next_action thr { s with attempts := s.attempts + 1 }).2, rfl, ?_⟩
    rcases decide_none_frame hdec with h | ⟨h, hq⟩ <;> rw [h] <;> simp_all
  | some act =>
    right
    have heq := decide_some_state hdec
    have hlt := decide_some_lt hdec
    have hmem := decide_some_mem hdec
    simp only [hdec, heq]
    obtain ⟨resp, s', accB, hshape, hrespdef, hatt, hmax, hhist, hpc,
      hexec, hseq, hnv, hv⟩ :=
      exec_phase_spec thr cfg (calls acc.calls_made) act
        { s with attempts := s.attempts + 1,
                 action_history := s.action_history ++ [act] }
        { acc with planner_calls := acc.planner_calls + 1 } hmem
    refine ⟨act, resp, s', accB, ?_, by simpa using hlt, hmem,
      by simpa using hatt, by simpa using hmax, by simpa using hhist,
      by simpa using hpc, by simpa using hexec, by simpa using hseq,
      fun hf => by
        rw [hrespdef] at hf ⊢
        exact run_tool_fail_content cfg act (calls acc.calls_made) _ hf,
      fun hnv' => by simpa using hnv hnv',
      fun hv' => by simpa using hv hv', fun hv' => ?_, fun hinv => ?_⟩
    · rcases hshape with ⟨h1, h2, h3, h4⟩ | ⟨h1, h2, h3, h4⟩
      · exact Or.inl ⟨h1, h2, by simpa using h3, by simpa using h4⟩
      · exact Or.inr ⟨h1, h2, h3, h4⟩
    · subst hv'
      simpa using decide_validate_none hdec
    · have hg1 : ({ s with attempts := s.attempts + 1 } : AgentState).goal_achieved = true →
          thr ≤ ({ s with attempts := s.attempts + 1 } : AgentState).quality_score := by
        simpa using hinv
      simpa using decide_some_goal hdec hg1

/-- Counting invariants of the loop: the attempt counter and the Planner
consultation counter advance in lockstep; the attempt counter never
passes the budget; the budget is constant; at most `max - attempts - 1`
further actions are executed, each logged once in `action_sequence`, once
in `action_history` and once in the trace, at an attempt index strictly
below the budget. -/
theorem loop_fuel_counts (thr : ℚ) (cfg : AgentsConfig) (calls : Nat → LLMOutcome) :
    ∀ (f : Nat) (s : AgentState) (acc : RunAcc), s.attempts ≤ s.max_attempts →
    (loop_fuel thr cfg calls f s acc).1.attempts + acc.planner_calls =
        (loop_fuel thr cfg calls f s acc).2.planner_calls + s.attempts ∧
    (loop_fuel thr cfg calls f s acc).1.attempts ≤ s.max_attempts ∧
    (loop_fuel thr cfg calls f s acc).1.max_attempts = s.max_attempts ∧
    (loop_fuel thr cfg calls f s acc).2.executed.length ≤
        acc.executed.length + (s.max_attempts - s.attempts - 1) ∧
    (loop_fuel thr cfg calls f s acc).2.action_sequence.length + acc.executed.length =
        (loop_fuel thr cfg calls f s acc).2.executed.length + acc.action_sequence.length ∧
    (loop_fuel thr cfg calls f s acc).1.action_history.length + acc.executed.length =
        (loop_fuel thr cfg calls f s acc).2.executed.length + s.action_history.length ∧
    (∀ e ∈ (loop_fuel thr cfg calls f s acc).2.executed,
      e ∈ acc.executed ∨ e.attempt < s.max_attempts) := by
  intro f
  induction f with
  | zero =>
    intro s acc hs
    dsimp only [loop_fuel]
    exact ⟨by omega, hs, rfl, by omega, by omega, by omega, fun e he => Or.inl he⟩
  | succ f ih =>
    intro s acc hs
    by_cases hguard : s.attempts < s.max_attempts
    · rw [loop_fuel, if_pos hguard]
      rcases loop_body_spec thr cfg calls s acc with
        ⟨s', hbody, hatt, hmax, hhist, _, _, _⟩ |
        ⟨act, resp, s', accB, hshape, hlt, _, hatt, hmax, hhist, hpc, hexec, hseq,
          _, _, _, _, _⟩
      · rw [hbody]
        dsimp only
        have hhl : s'.action_history.length = s.action_history.length := by rw [hhist]
        exact ⟨by omega, by omega, hmax, by omega, by omega, by omega,
          fun e he => Or.inl he⟩
      · have hexlen : accB.executed.length = acc.executed.length + 1 := by
          rw [hexec]; simp
        have hhlen : s'.action_history.length = s.action_history.length + 1 := by
          rw [hhist]; simp
        rcases hshape with ⟨hsu, heq, _, _⟩ | ⟨hsu, heq, _, _⟩
        · rw [heq]
          dsimp only
          have hs' : s'.attempts ≤ s'.max_attempts := by omega
          obtain ⟨ih1, ih2, ih3, ih4, ih5, ih6, ih7⟩ := ih s' accB hs'
          refine ⟨by omega, by omega, by omega, by omega, by omega, by omega, ?_⟩
          intro e he
          rcases ih7 e he with hmem | hsmall
          · rw [hexec] at hmem
            rcases List.mem_append.mp hmem with h | h
            · exact Or.inl h
            · simp only [List.mem_singleton] at h
              subst h
              exact Or.inr (by dsimp only; omega)
          · exact Or.inr (by omega)
        · rw [heq]
          dsimp only
          refine ⟨by omega, by omega, by omega, by omega, by omega, by omega, ?_⟩
          intro e he
          rw [hexec] at he
          rcases List.mem_append.mp he with h | h
          · exact Or.inl h
          · simp only [List.mem_singleton] at h
            subst h
            exact Or.inr (by dsimp only; omega)
    · rw [loop_fuel, if_neg hguard]
      dsimp only
      exact ⟨by omega, hs, rfl, by omega, by omega, by omega, fun e he => Or.inl he⟩

/-- Extra fuel beyond `max_attempts - attempts` is never consumed: the
guard closes the loop first, so the fuel-driven embedding computes the
fixpoint of the source's unbounded `while`. -/
theorem loop_fuel_stable (thr : ℚ) (cfg : AgentsConfig) (calls : Nat → LLMOutcome) :
    ∀ (f : Nat) (s : AgentState) (acc : RunAcc),
      s.max_attempts - s.attempts ≤ f →
      loop_fuel thr cfg calls (f + 1) s acc = loop_fuel thr cfg calls f s acc := by
  intro f
  induction f with
  | zero =>
    intro s acc hf
    have h2 : ¬ s.attempts < s.max_attempts := by omega
    conv_lhs => rw [loop_fuel]
    rw [if_neg h2]
    rfl
  | succ f ih =>
    intro s acc hf
    by_cases hguard : s.attempts < s.max_attempts
    · rw [loop_fuel, if_pos hguard]
      conv_rhs => rw [loop_fuel, if_pos hguard]
      rcases loop_body_spec thr cfg calls s acc with
        ⟨s', hbody, _, _, _, _, _, _⟩ |
        ⟨act, resp, s', accB, hshape, hlt, _, hatt, hmax, _, _, _, _, _, _, _, _, _⟩
      · rw [hbody]
      · rcases hshape with ⟨_, heq, _, _⟩ | ⟨_, heq, _, _⟩
        · rw [heq]
          dsimp only
          exact ih s' accB (by omega)
        · rw [heq]
    · rw [loop_fuel, if_neg hguard, loop_fuel, if_neg hguard]

/-- The failure branch of the extractor on empty content: no marker line,
no keyword, score 0.4. -/
theorem extract_empty : extract_quality_score "" = 2/5 := by
  have h1 : scan_score_lines (splitLines "".data) = none := by decide
  have h2 : strIn "PASS" "" = false := by decide
  have h3 : strIn "APPROVE" "" = false := by decide
  have h4 : strIn "REVISE" "" = false := by decide
  unfold extract_quality_score
  rw [h1]
  rw [h2, h3, h4]
  norm_num

/-- Validate-count invariant: the number of validate actions in the
history never exceeds one, and once the validation slot is filled it
stays filled — the Planner never chooses validate on a filled slot. -/
theorem loop_fuel_validate (thr : ℚ) (cfg : AgentsConfig) (calls : Nat → LLMOutcome) :
    ∀ (f : Nat) (s : AgentState) (acc : RunAcc),
      s.action_history.count "validate" ≤
        (if s.validation_output.isSome then 1 else 0) →
      (loop_fuel thr cfg calls f s acc).1.action_history.count "validate" ≤
        (if (loop_fuel thr cfg calls f s acc).1.validation_output.isSome then 1 else 0) ∧
      (s.validation_output.isSome = true →
        (loop_fuel thr cfg calls f s acc).1.validation_output.isSome = true) := by
  intro f
  induction f with
  | zero =>
    intro s acc hcnt
    dsimp only [loop_fuel]
    exact ⟨hcnt, fun h => h⟩
  | succ f ih =>
    intro s acc hcnt
    by_cases hguard : s.attempts < s.max_attempts
    · rw [loop_fuel, if_pos hguard]
      rcases loop_body_spec thr cfg calls s acc with
        ⟨s', hbody, _, _, hhist, hval, _, _⟩ |
        ⟨act, resp, s', accB, hshape, _, _, _, _, hhist, _, _, _, _, hnv, hv,
          hvnone, _⟩
      · rw [hbody]
        dsimp only
        rw [hhist, hval]
        exact ⟨hcnt, fun h => h⟩
      · have hstep : s'.action_history.count "validate" ≤
            (if s'.validation_output.isSome then 1 else 0) ∧
            (s.validation_output.isSome = true →
              s'.validation_output.isSome = true) := by
          by_cases hva : act = "validate"
          · subst hva
            obtain ⟨hv1, _, _⟩ := hv rfl
            have h0 : s.validation_output = none := hvnone rfl
            have hc0 : s.action_history.count "validate" = 0 := by
              have := hcnt
              rw [h0] at this
              simpa using this
            constructor
            · rw [hhist, hv1]
              simp [List.count_append, hc0]
            · intro h
              rw [hv1]
              rfl
          · obtain ⟨hv1, _, _⟩ := hnv hva
            constructor
            · rw [hhist, hv1]
              have hnm : "validate" ∉ [act] := by
                simp only [List.mem_singleton]
                exact fun h => hva h.symm
              rw [List.count_append, List.count_eq_zero.mpr hnm]
              simpa using hcnt
            · intro h
              rw [hv1]
              exact h
        rcases hshape with ⟨_, heq, _, _⟩ | ⟨_, heq, _, _⟩
        · rw [heq]
          dsimp only
          obtain ⟨ihc, ihm⟩ := ih s' accB hstep.1
          exact ⟨ihc, fun h => ihm (hstep.2 h)⟩
        · rw [heq]
          dsimp only
          exact hstep
    · rw [loop_fuel, if_neg hguard]
      dsimp only
      exact ⟨hcnt, fun h => h⟩

/-- Failure invariant of the loop (for thresholds above the failure
fallback score 0.4): either every executed call succeeded and no failure
bookkeeping happened, or the run halted on its unique failing call with
status "failed", `failed_action` naming it, the goal unachieved and the
budget not exhausted. -/
theorem loop_fuel_failure (thr : ℚ) (cfg : AgentsConfig) (calls : Nat → LLMOutcome)
    (hthr : 2/5 < thr) :
    ∀ (f : Nat) (s : AgentState) (acc : RunAcc),
      acc.status = "in_progress" → acc.failed_action = none →
      (∀ e ∈ acc.executed, e.success = true) →
      (s.goal_achieved = true → thr ≤ s.quality_score) →
      ((loop_fuel thr cfg calls f s acc).2.status = "in_progress" ∧
        (loop_fuel thr cfg calls f s acc).2.failed_action = none ∧
        (∀ e ∈ (loop_fuel thr cfg calls f s acc).2.executed, e.success = true) ∧
        ((loop_fuel thr cfg calls f s acc).1.goal_achieved = true →
          thr ≤ (loop_fuel thr cfg calls f s acc).1.quality_score)) ∨
      ((loop_fuel thr cfg calls f s acc).2.status = "failed" ∧
        (loop_fuel thr cfg calls f s acc).1.goal_achieved = false ∧
        (loop_fuel thr cfg calls f s acc).1.attempts <
          (loop_fuel thr cfg calls f s acc).1.max_attempts ∧
        ∃ (pre : List ExecRec) (e : ExecRec),
          (loop_fuel thr cfg calls f s acc).2.executed = pre ++ [e] ∧
          e.success = false ∧ (∀ x ∈ pre, x.success = true) ∧
          (loop_fuel thr cfg calls f s acc).2.failed_action = some e.action ∧
          e.attempt = (loop_fuel thr cfg calls f s acc).1.attempts) := by
  intro f
  induction f with
  | zero =>
    intro s acc h1 h2 h3 h4
    dsimp only [loop_fuel]
    exact Or.inl ⟨h1, h2, h3, h4⟩
  | succ f ih =>
    intro s acc h1 h2 h3 h4
    by_cases hguard : s.attempts < s.max_attempts
    · rw [loop_fuel, if_pos hguard]
      rcases loop_body_spec thr cfg calls s acc with
        ⟨s', hbody, _, _, _, _, hq, hgoal⟩ |
        ⟨act, resp, s', accB, hshape, hlt, _, hatt, hmax, _, _, hexec, _,
          hfailc, hnv, hv, _, hgoal0⟩
      · rw [hbody]
        dsimp only
        refine Or.inl ⟨h1, h2, h3, ?_⟩
        rcases hgoal with hg | ⟨hg, hq'⟩
        · intro ht
          rw [hq]
          exact h4 (hg ▸ ht)
        · intro _
          rw [hq]
          exact hq'
      · have hgoalfalse : s.goal_achieved = false := hgoal0 h4
        rcases hshape with ⟨hsu, heq, hst, hfa⟩ | ⟨hsu, heq, hst, hfa⟩
        · rw [heq]
          dsimp only
          have hgoal' : s'.goal_achieved = true → thr ≤ s'.quality_score := by
            by_cases hva : act = "validate"
            · subst hva
              obtain ⟨_, hq1, hiff⟩ := hv rfl
              intro hg
              rcases hiff.mp hg with hc | hc
              · rw [hq1]; exact hc
              · omega
            · obtain ⟨_, hg1, hq1⟩ := hnv hva
              intro hg
              rw [hq1]
              rw [hg1, hgoalfalse] at hg
              exact absurd hg (by simp)
          refine ih s' accB ?_ ?_ ?_ hgoal'
          · rw [hst]; exact h1
          · rw [hfa]; exact h2
          · intro e he
            rw [hexec] at he
            rcases List.mem_append.mp he with h | h
            · exact h3 e h
            · simp only [List.mem_singleton] at h
              subst h
              exact hsu
        · rw [heq]
          dsimp only
          have hgoalfinal : s'.goal_achieved = false := by
            by_cases hva : act = "validate"
            · subst hva
              obtain ⟨_, _, hiff⟩ := hv rfl
              have hcontent := hfailc hsu
              cases hg : s'.goal_achieved
              · rfl
              · exfalso
                rcases hiff.mp hg with hc | hc
                · rw [hcontent] at hc
                  rw [extract_empty] at hc
                  linarith
                · omega
            · obtain ⟨_, hg1, _⟩ := hnv hva
              rw [hg1]
              exact hgoalfalse
          refine Or.inr ⟨hst, hgoalfinal, by omega, acc.executed,
            ⟨s.attempts + 1, act, resp.success⟩, hexec, by simpa using hsu,
            h3, by simpa using hfa, by simp [hatt]⟩
    · rw [loop_fuel, if_neg hguard]
      dsimp only
      exact Or.inl ⟨h1, h2, h3, h4⟩

/-- Once the validation slot is filled it stays filled through any number
of further iterations. -/
theorem loop_fuel_valid_mono (thr : ℚ) (cfg : AgentsConfig) (calls : Nat → LLMOutcome) :
    ∀ (f : Nat) (s : AgentState) (acc : RunAcc),
      s.validation_output.isSome = true →
      ((loop_fuel thr cfg calls f s acc).1.validation_output).isSome = true := by
  intro f
  induction f with
  | zero =>
    intro s acc h
    exact h
  | succ f ih =>
    intro s acc h
    by_cases hguard : s.attempts < s.max_attempts
    · rw [loop_fuel, if_pos hguard]
      rcases loop_body_spec thr cfg calls s acc with
        ⟨s', hbody, _, _, _, hval, _, _⟩ |
        ⟨act, resp, s', accB, hshape, _, _, _, _, _, _, _, _, _, hnv, hv, _, _⟩
      · rw [hbody]
        dsimp only
        rw [hval]
        exact h
      · have hs' : s'.validation_output.isSome = true := by
          by_cases hva : act = "validate"
          · rw [(hv hva).1]
            rfl
          · rw [(hnv hva).1]
            exact h
        rcases hshape with ⟨_, heq, _, _⟩ | ⟨_, heq, _, _⟩
        · rw [heq]
          dsimp only
          exact ih s' accB hs'
        · rw [heq]
          dsimp only
          exact hs'
    · rw [loop_fuel, if_neg hguard]
      dsimp only
      exact h

/-- Field values of a non-rejected workflow result, in terms of the final
loop state and bookkeeping. -/
theorem orchestrate_fields (threshold : ℚ) (cfg : AgentsConfig)
    (boundary : BoundaryOutcome) (calls : Nat → LLMOutcome) (query wid : String)
    (hb : ¬ (check_boundaries boundary).1 = false) :
    (orchestrate_agentic_workflow threshold cfg boundary calls query wid).status =
      (if (loop_fuel threshold cfg calls 5 { workflow_id := wid, query := query }
            {}).1.goal_achieved = true then "completed"
        else if (loop_fuel threshold cfg calls 5 { workflow_id := wid, query := query }
            {}).1.attempts ≥ (loop_fuel threshold cfg calls 5
              { workflow_id := wid, query := query } {}).1.max_attempts then
          "max_attempts_reached"
        else (loop_fuel threshold cfg calls 5
          { workflow_id := wid, query := query } {}).2.status) ∧
    (orchestrate_agentic_workflow threshold cfg boundary calls query wid).executed =
      (loop_fuel threshold cfg calls 5 { workflow_id := wid, query := query } {}).2.executed ∧
    (orchestrate_agentic_workflow threshold cfg boundary calls query wid).failed_action =
      (loop_fuel threshold cfg calls 5
        { workflow_id := wid, query := query } {}).2.failed_action ∧
    (orchestrate_agentic_workflow threshold cfg boundary calls query wid).total_attempts =
      (loop_fuel threshold cfg calls 5 { workflow_id := wid, query := query } {}).1.attempts ∧
    (orchestrate_agentic_workflow threshold cfg boundary calls query wid).action_sequence =
      (loop_fuel threshold cfg calls 5
        { workflow_id := wid, query := query } {}).2.action_sequence ∧
    (orchestrate_agentic_workflow threshold cfg boundary calls query wid).action_history =
      (loop_fuel threshold cfg calls 5
        { workflow_id := wid, query := query } {}).1.action_history ∧
    (orchestrate_agentic_workflow threshold cfg boundary calls query wid).planner_calls =
      (loop_fuel threshold cfg calls 5
        { workflow_id := wid, query := query } {}).2.planner_calls := by
  unfold orchestrate_agentic_workflow agentic_loop
  dsimp only
  rw [if_neg hb]
  exact ⟨rfl, rfl, rfl, rfl, rfl, rfl, rfl⟩

/-- Field values of a rejected workflow result. -/
theorem orchestrate_rejected_fields (threshold : ℚ) (cfg : AgentsConfig)
    (boundary : BoundaryOutcome) (calls : Nat → LLMOutcome) (query wid : String)
    (hb : (check_boundaries boundary).1 = false) :
    (orchestrate_agentic_workflow threshold cfg boundary calls query wid).status =
      "rejected" ∧
    (orchestrate_agentic_workflow threshold cfg boundary calls query wid).executed = [] ∧
    (orchestrate_agentic_workflow threshold cfg boundary calls query wid).action_history
      = [] ∧
    (orchestrate_agentic_workflow threshold cfg boundary calls query wid).action_sequence
      = [] ∧
    (orchestrate_agentic_workflow threshold cfg boundary calls query wid).planner_calls
      = 0 ∧
    (orchestrate_agentic_workflow threshold cfg boundary calls query wid).total_attempts
      = 0 := by
  unfold orchestrate_agentic_workflow
  dsimp only
  rw [if_pos hb]
  exact ⟨rfl, rfl, rfl, rfl, rfl, rfl⟩

/-- C8: every loop iteration increases `attempts` by exactly one (the
consultation counter and the attempt counter advance in lockstep from
zero), the loop has exited by the time `attempts` reaches the budget of
5, and any fuel beyond the budget computes the same result, so the
source's unbounded `while` terminates within `max_attempts` iterations
for every Planner/state evolution. -/
theorem C8_loop_bounded (threshold : ℚ) (cfg : AgentsConfig)
    (boundary : BoundaryOutcome) (calls : Nat → LLMOutcome) (query wid : String) :
    (orchestrate_agentic_workflow threshold cfg boundary calls query wid).planner_calls
        = (orchestrate_agentic_workflow threshold cfg boundary calls query
            wid).total_attempts ∧
    (orchestrate_agentic_workflow threshold cfg boundary calls query wid).total_attempts
        ≤ 5 ∧
    (∀ f : Nat, 5 ≤ f →
      loop_fuel threshold cfg calls f { workflow_id := wid, query := query } {} =
        loop_fuel threshold cfg calls 5 { workflow_id := wid, query := query } {}) := by
  have hstab : ∀ f : Nat, 5 ≤ f →
      loop_fuel threshold cfg calls f { workflow_id := wid, query := query } {} =
        loop_fuel threshold cfg calls 5 { workflow_id := wid, query := query } {} := by
    intro f hf
    induction f, hf using Nat.le_induction with
    | base => rfl
    | succ n hn ihn =>
      rw [loop_fuel_stable threshold cfg calls n
        { workflow_id := wid, query := query } {} (by dsimp; omega), ihn]
  by_cases hb : (check_boundaries boundary).1 = false
  · obtain ⟨_, _, _, _, hpc, hta⟩ :=
      orchestrate_rejected_fields threshold cfg boundary calls query wid hb
    refine ⟨?_, ?_, hstab⟩
    · rw [hpc, hta]
    · rw [hta]
      omega
  · obtain ⟨hc1, hc2, _, _, _, _, _⟩ :=
      loop_fuel_counts threshold cfg calls 5
        { workflow_id := wid, query := query } {} (by dsimp; omega)
    obtain ⟨_, _, _, hta, _, _, hpc⟩ :=
      orchestrate_fields threshold cfg boundary calls query wid hb
    refine ⟨?_, ?_, hstab⟩
    · rw [hpc, hta]
      dsimp at hc1
      omega
    · rw [hta]
      exact hc2

/-- C8 witness: a concrete run in lockstep, and fuel 6 computes the same
run as fuel 5. -/
theorem C8_witness :
    (orchestrate_agentic_workflow (3/4) {} (.ok "NO") validate_fails_calls
        "q" "w").planner_calls =
      (orchestrate_agentic_workflow (3/4) {} (.ok "NO") validate_fails_calls
        "q" "w").total_attempts ∧
    loop_fuel (3/4) {} validate_fails_calls 6 { workflow_id := "w", query := "q" } {} =
      loop_fuel (3/4) {} validate_fails_calls 5 { workflow_id := "w", query := "q" } {} :=
  ⟨(C8_loop_bounded (3/4) {} (.ok "NO") validate_fails_calls "q" "w").1,
    (C8_loop_bounded (3/4) {} (.ok "NO") validate_fails_calls "q" "w").2.2 6
      (by norm_num)⟩

/-- C9: in every workflow run the validate action occurs at most once in
the history; once the validation slot is filled it is never reset by any
later action, and the Planner chooses validate only on an unfilled slot,
so the quality score is never updated after the first validation. -/
theorem C9_validate_once (threshold : ℚ) (cfg : AgentsConfig)
    (boundary : BoundaryOutcome) (calls : Nat → LLMOutcome) (query wid : String) :
    (orchestrate_agentic_workflow threshold cfg boundary calls query
        wid).action_history.count "validate" ≤ 1 ∧
    (∀ (f : Nat) (s : AgentState) (acc : RunAcc),
      s.validation_output.isSome = true →
      ((loop_fuel threshold cfg calls f s acc).1.validation_output).isSome = true) ∧
    (∀ s : AgentState, (decide_next_action threshold s).1 = some "validate" →
      s.validation_output = none) := by
  refine ⟨?_, loop_fuel_valid_mono threshold cfg calls,
    fun s h => decide_validate_none h⟩
  by_cases hb : (check_boundaries boundary).1 = false
  · obtain ⟨_, _, hhist, _, _, _⟩ :=
      orchestrate_rejected_fields threshold cfg boundary calls query wid hb
    rw [hhist]
    simp
  · obtain ⟨_, _, _, _, _, hhist, _⟩ :=
      orchestrate_fields threshold cfg boundary calls query wid hb
    rw [hhist]
    obtain ⟨hcnt, _⟩ := loop_fuel_validate threshold cfg calls 5
      { workflow_id := wid, query := query } {} (by simp)
    split_ifs at hcnt <;> omega

/-- C9 witness: the count bound at a concrete run, slot persistence from a
filled state, and the Planner forced to pick validate exactly on an
unfilled slot. -/
theorem C9_witness :
    (orchestrate_agentic_workflow (3/4) {} (.ok "NO") validate_fails_calls
        "q" "w").action_history.count "validate" ≤ 1 ∧
    ((loop_fuel (3/4) {} validate_fails_calls 0 goal_pending_state
        {}).1.validation_output).isSome = true ∧
    validate_next_state.validation_output = none :=
  ⟨(C9_validate_once (3/4) {} (.ok "NO") validate_fails_calls "q" "w").1,
    (C9_validate_once (3/4) {} (.ok "NO") validate_fails_calls "q" "w").2.1 0
      goal_pending_state {} (by simp [goal_pending_state]),
    (C9_validate_once (3/4) {} (.ok "NO") validate_fails_calls "q" "w").2.2
      validate_next_state (by simp [decide_next_action, validate_next_state])⟩

/-- C10: in every workflow run at most `max_attempts - 1 = 4` actions are
executed — `action_history`, the executed trace and `action_sequence` all
have length at most 4, and every executed action ran at an attempt index
at most 4: because `attempts` is incremented before the Planner is
consulted and the Planner stops at `attempts ≥ max_attempts`, no
capability call is made on the final counted attempt. -/
theorem C10_actions_bounded (threshold : ℚ) (cfg : AgentsConfig)
    (boundary : BoundaryOutcome) (calls : Nat → LLMOutcome) (query wid : String) :
    (orchestrate_agentic_workflow threshold cfg boundary calls query
        wid).action_history.length ≤ 5 - 1 ∧
    (orchestrate_agentic_workflow threshold cfg boundary calls query
        wid).executed.length ≤ 5 - 1 ∧
    (orchestrate_agentic_workflow threshold cfg boundary calls query
        wid).action_sequence.length ≤ 5 - 1 ∧
    (orchestrate_agentic_workflow threshold cfg boundary calls query
        wid).executed.all (fun e => decide (e.attempt ≤ 5 - 1)) = true := by
  by_cases hb : (check_boundaries boundary).1 = false
  · obtain ⟨_, hexec, hhist, hseq, _, _⟩ :=
      orchestrate_rejected_fields threshold cfg boundary calls query wid hb
    rw [hexec, hhist, hseq]
    simp
  · obtain ⟨_, hexec, _, _, hseq, hhist, _⟩ :=
      orchestrate_fields threshold cfg boundary calls query wid hb
    obtain ⟨_, _, _, hc4, hc5, hc6, hc7⟩ :=
      loop_fuel_counts threshold cfg calls 5
        { workflow_id := wid, query := query } {} (by dsimp; omega)
    rw [hexec, hhist, hseq]
    dsimp at hc4 hc5 hc6
    refine ⟨by omega, by omega, by omega, ?_⟩
    rw [List.all_eq_true]
    intro e he
    rcases hc7 e he with hmem | hsmall
    · exact absurd hmem (by simp)
    · simp only [decide_eq_true_eq]
      dsimp at hsmall
      omega

/-- C2 (amended): provided the quality threshold exceeds the extractor's
failure fallback score 0.4, any workflow run in which some executed
capability call returned `success = false` ends with status "failed",
`failed_action` naming that call's action, that call as the last executed
action (no further actions recorded), the final attempt counter equal to
the attempt at which it was invoked, and one action-log entry per
executed action. -/
theorem C2_failure_short_circuits (threshold : ℚ) (hthr : 2/5 < threshold)
    (cfg : AgentsConfig) (boundary : BoundaryOutcome) (calls : Nat → LLMOutcome)
    (query wid : String) (e : ExecRec)
    (he : e ∈ (orchestrate_agentic_workflow threshold cfg boundary calls query
      wid).executed)
    (hf : e.success = false) :
    (orchestrate_agentic_workflow threshold cfg boundary calls query wid).status
        = "failed" ∧
    (orchestrate_agentic_workflow threshold cfg boundary calls query wid).failed_action
        = some e.action ∧
    (orchestrate_agentic_workflow threshold cfg boundary calls query
        wid).executed.getLast? = some e ∧
    (orchestrate_agentic_workflow threshold cfg boundary calls query wid).total_attempts
        = e.attempt ∧
    (orchestrate_agentic_workflow threshold cfg boundary calls query
        wid).action_sequence.length =
      (orchestrate_agentic_workflow threshold cfg boundary calls query
        wid).executed.length := by
  by_cases hb : (check_boundaries boundary).1 = false
  · obtain ⟨_, hexec, _, _, _, _⟩ :=
      orchestrate_rejected_fields threshold cfg boundary calls query wid hb
    rw [hexec] at he
    exact absurd he (by simp)
  · obtain ⟨hstatus, hexec, hfa, hta, hseq, _, _⟩ :=
      orchestrate_fields threshold cfg boundary calls query wid hb
    rcases loop_fuel_failure threshold cfg calls hthr 5
        { workflow_id := wid, query := query } {} rfl rfl (by simp) (by simp) with
      ⟨_, _, hall, _⟩ | ⟨hst, hgoal, hlt, pre, x, hdecomp, hxfail, hpre, hfailact, hxatt⟩
    · rw [hexec] at he
      exact absurd (hall e he) (by simp [hf])
    · have hex : e = x := by
        rw [hexec, hdecomp] at he
        rcases List.mem_append.mp he with h | h
        · exact absurd (hpre e h) (by simp [hf])
        · simpa using h
      subst hex
      have hstat : (orchestrate_agentic_workflow threshold cfg boundary calls query
          wid).status = "failed" := by
        rw [hstatus, hgoal]
        rw [if_neg (by simp)]
        rw [if_neg (by omega)]
        exact hst
      refine ⟨hstat, ?_, ?_, ?_, ?_⟩
      · rw [hfa]
        exact hfailact
      · rw [hexec, hdecomp]
        exact List.getLast?_concat pre
      · rw [hta]
        exact hxatt.symm
      · obtain ⟨_, _, _, _, hc5, _, _⟩ :=
          loop_fuel_counts threshold cfg calls 5
            { workflow_id := wid, query := query } {} (by dsimp; omega)
        rw [hseq, hexec]
        dsimp at hc5
        omega

/-- Projection of the Planner's chosen action through its decision chain,
used to evaluate concrete runs. -/
theorem decide_fst (thr : ℚ) (s : AgentState) :
    (decide_next_action thr s).1 =
      (if s.attempts ≥ s.max_attempts then none
      else if s.goal_achieved = true ∧ s.quality_score ≥ thr then none
      else if s.research_output = none then some "research"
      else if s.analysis_output = none then some "analyze"
      else if s.validation_output = none then some "validate"
      else if s.quality_score < thr then
        (if s.quality_score < 1/2 then some "research"
         else if s.quality_score < 13/20 then some "refine_analysis"
         else some "refine_minor")
      else none) := by
  unfold decide_next_action
  split_ifs <;> rfl

/-- Projection of the Planner's returned state through its decision
chain, used to evaluate concrete runs. -/
theorem decide_snd (thr : ℚ) (s : AgentState) :
    (decide_next_action thr s).2 =
      (if s.attempts ≥ s.max_attempts then s
      else if s.goal_achieved = true ∧ s.quality_score ≥ thr then s
      else if s.research_output = none then s
      else if s.analysis_output = none then s
      else if s.validation_output = none then s
      else if s.quality_score < thr then s
      else { s with goal_achieved := true }) := by
  unfold decide_next_action
  split_ifs <;> rfl

/-- The extractor on the Scenario-A validation reply: the marker line
carries 85, so the score is 0.85. -/
theorem extract_85 : extract_quality_score "Overall Quality Score: 85" = 17/20 := by
  have h1 : scan_score_lines (splitLines ("Overall Quality Score: 85").data)
      = some 85 := by decide
  unfold extract_quality_score
  rw [h1]
  norm_num

/-- C2 witness: a concrete failing analyze call at the default threshold
0.75 yields the failed status naming analyze. -/
theorem C2_witness :
    (orchestrate_agentic_workflow (3/4) {} (.ok "NO") analyze_fails_calls
        "q" "w").status = "failed" ∧
    (orchestrate_agentic_workflow (3/4) {} (.ok "NO") analyze_fails_calls
        "q" "w").failed_action = some "analyze" := by
  have hno : subL "yes".data (lowerL (pyStrip "NO".data)) = false := by decide
  have hra : strIn "refine" "analyze" = false := by decide
  have hev : (orchestrate_agentic_workflow (3/4) {} (.ok "NO") analyze_fails_calls
      "q" "w").executed =
      [{ attempt := 1, action := "research", success := true },
       { attempt := 2, action := "analyze", success := false }] := by
    simp [orchestrate_agentic_workflow, agentic_loop, loop_fuel, loop_body,
      exec_phase, decide_fst, decide_snd, step_update, run_tool, execute_llm,
      mk_llm_call, tool_exists, should_retry, check_boundaries, analyze_fails_calls,
      pre_reason, stage_insert, hno, hra]
  have hmem : ({ attempt := 2, action := "analyze", success := false } : ExecRec) ∈
      (orchestrate_agentic_workflow (3/4) {} (.ok "NO") analyze_fails_calls
        "q" "w").executed := by
    rw [hev]
    simp
  have h := C2_failure_short_circuits (3/4) (by norm_num) {} (.ok "NO")
    analyze_fails_calls "q" "w" { attempt := 2, action := "analyze", success := false }
    hmem rfl
  exact ⟨h.1, h.2.1⟩

/-- C2 counterexample: with an injected quality threshold of 0.4 (at or
below the extractor's failure fallback score), a run whose validate call
fails (its trace ends in a failed entry) nevertheless returns status
"completed": the terminal resolution overwrites the eagerly-set "failed",
so the claim as stated — failure always yields status 'failed' — is
false on the code. -/
theorem C2_counterexample :
    (orchestrate_agentic_workflow (2/5) {} (.ok "NO") validate_fails_calls
        "q" "w").executed =
      [{ attempt := 1, action := "research", success := true },
       { attempt := 2, action := "analyze", success := true },
       { attempt := 3, action := "validate", success := false }] ∧
    (orchestrate_agentic_workflow (2/5) {} (.ok "NO") validate_fails_calls
        "q" "w").failed_action = some "validate" ∧
    (orchestrate_agentic_workflow (2/5) {} (.ok "NO") validate_fails_calls
        "q" "w").status = "completed" ∧
    ¬ (orchestrate_agentic_workflow (2/5) {} (.ok "NO") validate_fails_calls
        "q" "w").status = "failed" := by
  have hno : subL "yes".data (lowerL (pyStrip "NO".data)) = false := by decide
  have hra : strIn "refine" "analyze" = false := by decide
  have hq : (2:ℚ)/5 ≥ 2/5 := le_refl _
  refine ⟨?_, ?_, ?_, ?_⟩ <;>
  simp [orchestrate_agentic_workflow, agentic_loop, loop_fuel, loop_body,
    exec_phase, decide_fst, decide_snd, step_update, run_tool, execute_llm,
    mk_llm_call, tool_exists, should_retry, check_boundaries, validate_fails_calls,
    pre_reason, stage_insert, extract_empty, hno, hra, hq]

/-- C3 (amended): in the Scenario-A run — boundary passed, research,
analyze and validate all succeed (with any contents, usage and latency
for the first two), the validation reply carrying the line "Overall
Quality Score: 85", threshold 0.75 — the result has status "completed",
final quality 0.85 and no refinement loops, but `total_attempts` is 4,
not 3: the final loop iteration in which the Planner decides to stop also
increments the attempt counter. -/
theorem C3_scenarioA (r1 r2 : String) (u1 u2 u3 : TokenUsage) (l1 l2 l3 : ℚ) :
    (orchestrate_agentic_workflow (3/4) {} (.ok "NO")
        (scenarioA_calls r1 r2 u1 u2 u3 l1 l2 l3) "q" "w").status = "completed" ∧
    (orchestrate_agentic_workflow (3/4) {} (.ok "NO")
        (scenarioA_calls r1 r2 u1 u2 u3 l1 l2 l3) "q" "w").final_quality_score
      = 17/20 ∧
    (orchestrate_agentic_workflow (3/4) {} (.ok "NO")
        (scenarioA_calls r1 r2 u1 u2 u3 l1 l2 l3) "q" "w").total_attempts = 4 ∧
    (orchestrate_agentic_workflow (3/4) {} (.ok "NO")
        (scenarioA_calls r1 r2 u1 u2 u3 l1 l2 l3) "q" "w").refinement_loops = 0 := by
  have hno : subL "yes".data (lowerL (pyStrip "NO".data)) = false := by decide
  have hra : strIn "refine" "analyze" = false := by decide
  have h1 : (17:ℚ)/20 ≥ 3/4 := by norm_num
  have h2 : ¬((17:ℚ)/20 < 3/4) := by norm_num
  refine ⟨?_, ?_, ?_, ?_⟩ <;>
  simp [orchestrate_agentic_workflow, agentic_loop, loop_fuel, loop_body,
    exec_phase, decide_fst, decide_snd, step_update, run_tool, execute_llm,
    mk_llm_call, tool_exists, should_retry, check_boundaries, scenarioA_calls,
    pre_reason, stage_insert, extract_85, hno, hra, h1, h2]

/-- C3 counterexample: the concrete Scenario-A run does complete with
quality 0.85 and no refinement, but its `total_attempts` is 4 — not 3 as
the claim states. -/
theorem C3_counterexample :
    (orchestrate_agentic_workflow (3/4) {} (.ok "NO")
        (scenarioA_calls "research findings" "analysis text"
          ⟨10, 20, 30⟩ ⟨10, 20, 30⟩ ⟨10, 20, 30⟩ 5 5 5) "q" "w").status
      = "completed" ∧
    (orchestrate_agentic_workflow (3/4) {} (.ok "NO")
        (scenarioA_calls "research findings" "analysis text"
          ⟨10, 20, 30⟩ ⟨10, 20, 30⟩ ⟨10, 20, 30⟩ 5 5 5) "q" "w").final_quality_score
      = 17/20 ∧
    ¬ (orchestrate_agentic_workflow (3/4) {} (.ok "NO")
        (scenarioA_calls "research findings" "analysis text"
          ⟨10, 20, 30⟩ ⟨10, 20, 30⟩ ⟨10, 20, 30⟩ 5 5 5) "q" "w").total_attempts
      = 3 := by
  have hno : subL "yes".data (lowerL (pyStrip "NO".data)) = false := by decide
  have hra : strIn "refine" "analyze" = false := by decide
  have h1 : (17:ℚ)/20 ≥ 3/4 := by norm_num
  have h2 : ¬((17:ℚ)/20 < 3/4) := by norm_num
  refine ⟨?_, ?_, ?_⟩ <;>
  simp [orchestrate_agentic_workflow, agentic_loop, loop_fuel, loop_body,
    exec_phase, decide_fst, decide_snd, step_update, run_tool, execute_llm,
    mk_llm_call, tool_exists, should_retry, check_boundaries, scenarioA_calls,
    pre_reason, stage_insert, extract_85, hno, hra, h1, h2]

/-- C6 witness: a concrete failing call with empty constraints. -/
theorem C6_witness :
    execute_llm "researcher" "p" {} (fun _ => .err "quota" 3) =
      { agent_role := "researcher", content := "", latency_ms := 3
        token_usage := ⟨0, 0, 0⟩, success := false, error := some "quota" } ∧
    (mk_llm_call "researcher" "p" {}).temperature = 1/2 ∧
    (mk_llm_call "researcher" "p" {}).max_tokens = 500 :=
  ⟨(C6_capability_client "researcher" "p" {} (fun _ => .err "quota" 3) "quota" 3).1 rfl,
    (C6_capability_client "researcher" "p" {} (fun _ => .err "quota" 3) "quota" 3).2.1 rfl,
    (C6_capability_client "researcher" "p" {} (fun _ => .err "quota" 3) "quota" 3).2.2 rfl⟩
